import Mathlib

/-!
Verification of the local library engine of the euterpe media server.

The development shallowly embeds `LocalLibrary.Scan` and its per-root walker
`scanPath` (file `src/library/local_library_scan.go`) as trace-producing
functions, the database cleanup pass and the search surface as pure
functions over a relational catalog value, and the synchronization skeleton
of `Scan` (RWMutex + WaitGroup) as an explicit small-step machine used to
analyse concurrent `Scan` calls.

Durations and database integers are modelled as `Int` (Go `int64`,
`time.Duration`); none of the relevant code can overflow them in a way any
claim depends on, since they are only compared against zero and against
each other and incremented by one per visited entry.
-/

/-- Observable events of a scan, in program order.  `addMedia p` records an
invocation of `lib.AddMedia(p)` (the catalog upsert); `watchReg p` an
invocation of `lib.watch.Watch(p)`; the `log…` events record the
`log.Printf` calls of the corresponding failure branches; `sleep d` a
`time.Sleep(d)`; `walkerDone r` the `lib.walkWG.Done()` of the walker for
root `r`; `watcherInit` the `lib.initializeWatcher()` call and `cleanup`
the `lib.cleanUpDatabase()` call inside `Scan`. -/
inductive ScanEvent
  | addMedia (path : String)
  | logAddError (path : String)
  | watchReg (path : String)
  | logWatchError (path : String)
  | logEntryError (path : String)
  | logWalkError (root : String)
  | sleep (d : Int)
  | walkerDone (root : String)
  | watcherInit
  | cleanup
deriving DecidableEq, Repr

/-- True exactly on `sleep` events. -/
def ScanEvent.isSleep : ScanEvent → Bool
  | .sleep _ => true
  | _ => false

/-- True exactly on `walkerDone` events. -/
def ScanEvent.isWalkerDone : ScanEvent → Bool
  | .walkerDone _ => true
  | _ => false

/-- True exactly on `addMedia` events. -/
def ScanEvent.isAddMedia : ScanEvent → Bool
  | .addMedia _ => true
  | _ => false

/-- Environment of a `LocalLibrary` as far as `Scan`/`scanPath` read it:
the global `LibraryFastScan` flag, the three `ScanConfig` fields, and the
external collaborators as boolean oracles.  `isSupportedFormat` stands for
the repository's format filter, which per the spec (§4.3) is a pure
predicate on the path only; `addMediaFails p` tells whether
`lib.AddMedia(p)` returns a non-nil error, `watchActive` whether
`lib.watch ≠ nil`, and `watchFails p` whether `lib.watch.Watch(p)` fails. -/
structure LibEnv where
  fastScan : Bool
  initialWait : Int
  filesPerOperation : Int
  sleepPerOperation : Int
  isSupportedFormat : String → Bool
  watchActive : Bool
  addMediaFails : String → Bool
  watchFails : String → Bool

/-- One filesystem entry as delivered to the `filepath.Walk` callback:
its path, whether it is a directory, and whether the walk delivered it
together with a non-nil entry-level error (`err != nil` in the callback). -/
structure FsEntry where
  path : String
  isDir : Bool
  err : Bool
deriving DecidableEq, Repr

/-- Result of one invocation of the walk callback: the events it emitted,
the new value of the walker's `scannedFiles` counter, and the error value
it returned to `filepath.Walk`. -/
structure StepResult where
  events : List ScanEvent
  counter : Int
  ret : Option String
deriving Repr

/-- Events of the media-handling block of the walk callback (lines 68-73 of
`local_library_scan.go`): if the path passes the format filter, `AddMedia`
is invoked and its error, if any, is logged. -/
def mediaEvents (env : LibEnv) (e : FsEntry) : List ScanEvent :=
  if env.isSupportedFormat e.path then
    if env.addMediaFails e.path then
      [ScanEvent.addMedia e.path, ScanEvent.logAddError e.path]
    else
      [ScanEvent.addMedia e.path]
  else []

/-- Events of the watch-registration block of the walk callback (lines
75-81): if the watcher is live and the entry is a directory, `Watch` is
invoked and its error, if any, is logged. -/
def watchEvents (env : LibEnv) (e : FsEntry) : List ScanEvent :=
  if env.watchActive && e.isDir then
    if env.watchFails e.path then
      [ScanEvent.watchReg e.path, ScanEvent.logWatchError e.path]
    else
      [ScanEvent.watchReg e.path]
  else []

/-- The walk callback `walkFunc` of `scanPath` (lines 61-96 of
`local_library_scan.go`).  An entry delivered with an error is logged and
skipped.  Otherwise the media and watch blocks run, `scannedFiles` is
incremented, and if throttling is configured and the incremented counter
has reached `FilesPerOperation` the walker sleeps `SleepPerOperation` and
resets the counter.  The callback returns `nil` on every path. -/
def walkFunc (env : LibEnv) (e : FsEntry) (scannedFiles : Int) : StepResult :=
  if e.err then
    { events := [ScanEvent.logEntryError e.path], counter := scannedFiles, ret := none }
  else
    if env.fastScan = false ∧ 0 < env.filesPerOperation ∧
        env.filesPerOperation ≤ scannedFiles + 1 ∧ 0 < env.sleepPerOperation then
      { events := mediaEvents env e ++ watchEvents env e ++ [ScanEvent.sleep env.sleepPerOperation],
        counter := 0, ret := none }
    else
      { events := mediaEvents env e ++ watchEvents env e,
        counter := scannedFiles + 1, ret := none }

/-- Result of walking a sequence of entries: accumulated events, final
counter, the paths actually handed to the callback, and the error
`filepath.Walk` would return (the walk aborts early when the callback
returns a non-nil error). -/
structure WalkResult where
  events : List ScanEvent
  counter : Int
  visited : List String
  errOut : Option String
deriving DecidableEq, Repr

/-- `filepath.Walk` restricted to the visit sequence of one root: entries
are handed to `walkFunc` in order, threading the `scannedFiles` counter,
and the walk stops early if the callback ever returns an error. -/
def walkList (env : LibEnv) : List FsEntry → Int → WalkResult
  | [], c => { events := [], counter := c, visited := [], errOut := none }
  | e :: rest, c =>
    let s := walkFunc env e c
    match s.ret with
    | some msg =>
        { events := s.events, counter := s.counter, visited := [e.path], errOut := some msg }
    | none =>
        let r := walkList env rest s.counter
        { events := s.events ++ r.events, counter := r.counter,
          visited := e.path :: r.visited, errOut := r.errOut }

/-- The trace of one `scanPath` goroutine (lines 48-103): walk the root's
entries starting with a zero counter, log a walk error if `filepath.Walk`
returned one, and finally signal `walkWG.Done` (the deferred block). -/
def scanPath (env : LibEnv) (root : String) (entries : List FsEntry) : List ScanEvent :=
  let r := walkList env entries 0
  r.events ++
    (match r.errOut with
      | some _ => [ScanEvent.logWalkError root]
      | none => []) ++
    [ScanEvent.walkerDone root]

/-- Interleaving of several per-walker traces under a scheduler: each
schedule index pops the head of the chosen walker's remaining trace; any
trace left over after the schedule is exhausted is flushed in order.
Every list this produces is a valid interleaving of the walker traces. -/
def mergeTraces {α : Type} : List Nat → List (List α) → List α
  | [], ws => ws.flatten
  | i :: rest, ws =>
    match ws.get? i with
    | some (e :: tl) => e :: mergeTraces rest (ws.set i tl)
    | some [] => mergeTraces rest ws
    | none => mergeTraces rest ws

/-- The trace of one `Scan()` call (lines 12-42 of
`local_library_scan.go`): initialize the watcher, sleep `InitialWait`
unless fast mode is on or the wait is non-positive, run one walker per
configured root (their traces interleaved by an arbitrary scheduler since
they are concurrent goroutines), wait for all of them (`walkWG.Wait`), and
then run the cleanup pass.  `Scan` has no error return: its whole
observable behaviour is this trace. -/
def Scan (env : LibEnv) (paths : List String) (entriesOf : String → List FsEntry)
    (sched : List Nat) : List ScanEvent :=
  ScanEvent.watcherInit ::
    ((if env.fastScan = false ∧ 0 < env.initialWait
        then [ScanEvent.sleep env.initialWait] else []) ++
      mergeTraces sched (paths.map (fun p => scanPath env p (entriesOf p))) ++
      [ScanEvent.cleanup])

/-- Modelled from the spec: the persisted `tracks` rows (§6 of the spec and
the column list of the cleanup test); the Go type behind them is not under
`src/`.  Identifiers and durations are `int64`, hence `Int`. -/
structure Track where
  id : Int
  name : String
  albumID : Int
  artistID : Int
  number : Int
  fsPath : String
  duration : Int
deriving DecidableEq, Repr

/-- Modelled from the spec: the persisted `albums` rows (§6). -/
structure Album where
  id : Int
  name : String
  fsPath : String
deriving DecidableEq, Repr

/-- Modelled from the spec: the persisted `artists` rows (§6). -/
structure Artist where
  id : Int
  name : String
deriving DecidableEq, Repr

/-- Modelled from the spec: the relational catalog state — the three
tables of §6. -/
structure Catalog where
  tracks : List Track
  albums : List Album
  artists : List Artist
deriving DecidableEq, Repr

/-- Tracks that survive the reconciliation of the cleanup pass: those
whose filesystem path still exists (`fsExists` is the filesystem oracle,
`lib.fs` in the cleanup test). -/
def liveTracks (fsExists : String → Bool) (c : Catalog) : List Track :=
  c.tracks.filter (fun t => fsExists t.fsPath)

/-- Modelled from the spec: `lib.cleanUpDatabase()` is not under `src/`.
Per §3 and §4.5 of the spec and the cleanup test
(`local_library_cleanup_test.go`), the pass removes the Track rows whose
files no longer exist on disk, then deletes every Album with zero
referencing Tracks and then every Artist with zero referencing Tracks,
counted by direct Track references. -/
def cleanUpDatabase (fsExists : String → Bool) (c : Catalog) : Catalog :=
  { tracks := liveTracks fsExists c
  , albums := c.albums.filter
      (fun a => (liveTracks fsExists c).any (fun t => t.albumID == a.id))
  , artists := c.artists.filter
      (fun ar => (liveTracks fsExists c).any (fun t => t.artistID == ar.id)) }

/-- Whether `needle` occurs as a contiguous sublist of the second list. -/
def listContains (needle : List Char) : List Char → Bool
  | [] => needle.isEmpty
  | c :: tl => needle.isPrefixOf (c :: tl) || listContains needle tl

/-- Case-insensitive substring test on strings, character-wise `toLower`
of both sides then contiguous containment. -/
def containsCI (hay needle : String) : Bool :=
  listContains (needle.data.map Char.toLower) (hay.data.map Char.toLower)

/-- Name of the album row with the given id, or the empty string when
there is none. -/
def albumNameOf (c : Catalog) (i : Int) : String :=
  match c.albums.find? (fun a => a.id == i) with
  | some a => a.name
  | none => ""

/-- Name of the artist row with the given id, or the empty string when
there is none. -/
def artistNameOf (c : Catalog) (i : Int) : String :=
  match c.artists.find? (fun ar => ar.id == i) with
  | some ar => ar.name
  | none => ""

/-- Modelled from the spec: one element of the sequence returned by
`Search` — {id, title, album, artist, track number} (§4.7, §6). -/
structure SearchResult where
  id : Int
  title : String
  album : String
  artist : String
  trackNumber : Int
deriving DecidableEq, Repr

/-- Whether a track matches a search query: its title, album name or
artist name contains the query as a case-insensitive substring. -/
def trackMatches (c : Catalog) (q : String) (t : Track) : Bool :=
  containsCI t.name q || containsCI (albumNameOf c t.albumID) q ||
    containsCI (artistNameOf c t.artistID) q

/-- The search-result row built from a track. -/
def toSearchResult (c : Catalog) (t : Track) : SearchResult :=
  { id := t.id, title := t.name, album := albumNameOf c t.albumID,
    artist := artistNameOf c t.artistID, trackNumber := t.number }

/-- Modelled from the spec: `lib.Search(query)` is not under `src/`.  Per
§4.7 it performs case-insensitive substring matching across the
title/album/artist fields of the catalog and returns the matching rows;
an empty result is a normal outcome, not an error. -/
def Search (c : Catalog) (q : String) : List SearchResult :=
  (c.tracks.filter (trackMatches c q)).map (toSearchResult c)

/-- Program counter of one goroutine executing `Scan()` through the
synchronization skeleton of lines 12-42: the drain barrier
(`waitScanLock.RLock; walkWG.Wait; RUnlock`, lines 14-16), the spawn block
(`waitScanLock.Lock; for … walkWG.Add(1); go scanPath; Unlock`, lines
27-32, collapsed to lock/spawn/unlock), the join (`RLock; walkWG.Wait;
RUnlock`, lines 34-36) and the cleanup call (line 40). -/
inductive ScanPC
  | rlock1
  | wait1
  | runlock1
  | lock2
  | spawn
  | unlock2
  | rlock3
  | wait3
  | runlock3
  | cleanupCall
  | finished
deriving DecidableEq, Repr

/-- Shared synchronization state of two concurrent `Scan()` calls A and B
on the same `LocalLibrary`: each caller's program counter, the `walkWG`
WaitGroup counter, the reader count and writer flag of `waitScanLock`, and
how many walker goroutines spawned by each call are still running. -/
structure SyncState where
  pcA : ScanPC
  pcB : ScanPC
  wg : Nat
  readers : Nat
  writerHeld : Bool
  runningA : Nat
  runningB : Nat
deriving DecidableEq, Repr

/-- Program counter of the given caller. -/
def SyncState.pcOf (s : SyncState) (isA : Bool) : ScanPC :=
  if isA then s.pcA else s.pcB

/-- Replace the program counter of the given caller. -/
def SyncState.setPc (s : SyncState) (isA : Bool) (pc : ScanPC) : SyncState :=
  if isA then { s with pcA := pc } else { s with pcB := pc }

/-- Apply a function to the reader count of `waitScanLock`. -/
def SyncState.modifyReaders (s : SyncState) (f : Nat → Nat) : SyncState :=
  { s with readers := f s.readers }

/-- One step of one `Scan` caller, `none` when the caller is blocked at its
current instruction.  `n` is the number of configured library paths, so
the spawn block adds `n` to the WaitGroup and starts `n` walkers.
Semantics of the primitives follow Go's `sync` package: `RLock` blocks
while a writer holds the lock, `Lock` blocks while any reader or writer
holds it, and `WaitGroup.Wait` returns only when the counter is zero. -/
def threadStep (n : Nat) (isA : Bool) (s : SyncState) : Option SyncState :=
  match s.pcOf isA with
  | .rlock1 =>
      if s.writerHeld then none
      else some ((s.setPc isA .wait1).modifyReaders (· + 1))
  | .wait1 => if s.wg = 0 then some (s.setPc isA .runlock1) else none
  | .runlock1 => some ((s.setPc isA .lock2).modifyReaders (· - 1))
  | .lock2 =>
      if s.writerHeld ∨ s.readers ≠ 0 then none
      else some { s.setPc isA .spawn with writerHeld := true }
  | .spawn =>
      let s1 := s.setPc isA .unlock2
      some (if isA then { s1 with wg := s1.wg + n, runningA := s1.runningA + n }
            else { s1 with wg := s1.wg + n, runningB := s1.runningB + n })
  | .unlock2 => some { s.setPc isA .rlock3 with writerHeld := false }
  | .rlock3 =>
      if s.writerHeld then none
      else some ((s.setPc isA .wait3).modifyReaders (· + 1))
  | .wait3 => if s.wg = 0 then some (s.setPc isA .runlock3) else none
  | .runlock3 => some ((s.setPc isA .cleanupCall).modifyReaders (· - 1))
  | .cleanupCall => some (s.setPc isA .finished)
  | .finished => none

/-- Schedulable actions: a step of caller A or B, or the completion
(`walkWG.Done()`) of one running walker of the respective generation. -/
inductive SyncAction
  | stepA
  | stepB
  | doneA
  | doneB
deriving DecidableEq, Repr

/-- One labelled step of the whole system. -/
def syncStep (n : Nat) (a : SyncAction) (s : SyncState) : Option SyncState :=
  match a with
  | .stepA => threadStep n true s
  | .stepB => threadStep n false s
  | .doneA =>
      if s.runningA = 0 then none
      else some { s with runningA := s.runningA - 1, wg := s.wg - 1 }
  | .doneB =>
      if s.runningB = 0 then none
      else some { s with runningB := s.runningB - 1, wg := s.wg - 1 }

/-- Run a finite schedule of actions from a state; `none` as soon as a
scheduled action is not enabled, so a `some` result certifies that every
step of the schedule was a legal transition. -/
def syncRun (n : Nat) : List SyncAction → SyncState → Option SyncState
  | [], s => some s
  | a :: rest, s =>
    match syncStep n a s with
    | some s1 => syncRun n rest s1
    | none => none

/-- Initial state: both callers about to take the drain barrier, no
walkers, lock free. -/
def syncInit : SyncState :=
  { pcA := .rlock1, pcB := .rlock1, wg := 0, readers := 0,
    writerHeld := false, runningA := 0, runningB := 0 }

/-- A schedule in which both callers pass the drain barrier (lines 14-16)
before either reaches the spawn block, then each spawns its walkers. -/
def raceSchedule : List SyncAction :=
  [.stepA, .stepB, .stepA, .stepB, .stepA, .stepB,
   .stepA, .stepA, .stepA, .stepB, .stepB]

/-- Both generations have live walkers in this state. -/
def twoGenerationsLive (s : SyncState) : Bool :=
  decide (0 < s.runningA) && decide (0 < s.runningB)

/-- Whether `suf` is a suffix of the characters of `p`. -/
def hasSuffixChars (suf : List Char) (p : String) : Bool :=
  suf.reverse.isPrefixOf p.data.reverse

/-- Modelled from the spec: one representative instance of the format
filter of §4.3 — a fixed recognized extension (`.mp3`), pure in the path.
The concrete extension set of the repository's `isSupportedFormat` is not
under `src/`; everything proved about the walker holds for every such
path predicate, and this instance is used for concrete evaluations. -/
def sampleFormatFilter (p : String) : Bool := hasSuffixChars ".mp3".data p

/-- A concrete library environment used by witnesses and counterexamples:
throttling configured to pause for 5 after every 2 processed entries. -/
def sampleEnv : LibEnv :=
  { fastScan := false, initialWait := 0, filesPerOperation := 2,
    sleepPerOperation := 5,
    isSupportedFormat := sampleFormatFilter,
    watchActive := true,
    addMediaFails := fun _ => false, watchFails := fun _ => false }

/-- A visited directory whose name happens to carry a supported media
extension. -/
def dirEntry : FsEntry := { path := "/music/box.mp3", isDir := true, err := false }

/-- A visited regular media file delivered together with an entry-level
filesystem error (for example a failed stat). -/
def errEntry : FsEntry := { path := "/music/track.mp3", isDir := false, err := true }

/-- Catalog state of the cleanup test: album `Lonely Album` and artist
`Fruitless Fellow`, referenced only by two tracks whose files do not
exist on disk. -/
def lonelyCatalog : Catalog :=
  { tracks :=
      [ { id := 1, name := "First Track", albumID := 1, artistID := 1,
          number := 1, fsPath := "/does/not/exist/first.mp3", duration := 100 }
      , { id := 2, name := "Second Track", albumID := 1, artistID := 1,
          number := 2, fsPath := "/does/not/exist/second.mp3", duration := 255 } ]
  , albums := [ { id := 1, name := "Lonely Album", fsPath := "/path/to/no/tracks" } ]
  , artists := [ { id := 1, name := "Fruitless Fellow" } ] }

/-- Catalog state of the search test: exactly two tracks under the album
`Album Of Tests`. -/
def testsCatalog : Catalog :=
  { tracks :=
      [ { id := 11, name := "Awesome Track 1", albumID := 5, artistID := 7,
          number := 1, fsPath := "/lib/a/t1.mp3", duration := 120 }
      , { id := 12, name := "Track Numero Dos", albumID := 5, artistID := 7,
          number := 2, fsPath := "/lib/a/t2.mp3", duration := 180 } ]
  , albums := [ { id := 5, name := "Album Of Tests", fsPath := "/lib/a" } ]
  , artists := [ { id := 7, name := "Artist Testoff" } ] }

/-- The walk callback returns `nil` on every input (lines 65 and 95). -/
theorem walkFunc_ret (env : LibEnv) (e : FsEntry) (c : Int) :
    (walkFunc env e c).ret = none := by
  unfold walkFunc
  split
  · rfl
  · split <;> rfl

theorem mem_mediaEvents {env : LibEnv} {e : FsEntry} {x : ScanEvent}
    (hx : x ∈ mediaEvents env e) :
    x = ScanEvent.addMedia e.path ∨ x = ScanEvent.logAddError e.path := by
  unfold mediaEvents at hx
  split at hx
  · split at hx <;> simp at hx <;> tauto
  · simp at hx

theorem mem_watchEvents {env : LibEnv} {e : FsEntry} {x : ScanEvent}
    (hx : x ∈ watchEvents env e) :
    x = ScanEvent.watchReg e.path ∨ x = ScanEvent.logWatchError e.path := by
  unfold watchEvents at hx
  split at hx
  · split at hx <;> simp at hx <;> tauto
  · simp at hx

/-- Every event a single callback invocation emits is one of the per-entry
events; in particular never a `walkerDone`, `watcherInit` or `cleanup`. -/
theorem mem_walkFunc_events {env : LibEnv} {e : FsEntry} {c : Int} {x : ScanEvent}
    (hx : x ∈ (walkFunc env e c).events) :
    x = ScanEvent.addMedia e.path ∨ x = ScanEvent.logAddError e.path ∨
    x = ScanEvent.watchReg e.path ∨ x = ScanEvent.logWatchError e.path ∨
    x = ScanEvent.logEntryError e.path ∨ x = ScanEvent.sleep env.sleepPerOperation := by
  unfold walkFunc at hx
  split at hx
  · simp at hx; tauto
  · split at hx <;> simp only [List.mem_append, List.mem_singleton] at hx
    · rcases hx with (hm | hw) | hs
      · rcases mem_mediaEvents hm with h | h <;> tauto
      · rcases mem_watchEvents hw with h | h <;> tauto
      · tauto
    · rcases hx with hm | hw
      · rcases mem_mediaEvents hm with h | h <;> tauto
      · rcases mem_watchEvents hw with h | h <;> tauto

/-- The walk never aborts: `filepath.Walk` returns `nil` and the visit
sequence is exactly the list of entries, in order. -/
theorem walkList_total (env : LibEnv) (es : List FsEntry) (c : Int) :
    (walkList env es c).errOut = none ∧
    (walkList env es c).visited = es.map FsEntry.path := by
  induction es generalizing c with
  | nil => exact ⟨rfl, rfl⟩
  | cons e rest ih =>
    simp only [walkList, walkFunc_ret, List.map_cons]
    exact ⟨(ih _).1, by rw [(ih _).2]⟩

/-- Unfolding of one step of `walkList`, using that the callback never
returns an error. -/
theorem walkList_cons (env : LibEnv) (e : FsEntry) (rest : List FsEntry) (c : Int) :
    walkList env (e :: rest) c =
      { events := (walkFunc env e c).events ++
          (walkList env rest (walkFunc env e c).counter).events,
        counter := (walkList env rest (walkFunc env e c).counter).counter,
        visited := e.path :: (walkList env rest (walkFunc env e c).counter).visited,
        errOut := (walkList env rest (walkFunc env e c).counter).errOut } := by
  simp only [walkList, walkFunc_ret]

/-- A walk over a concatenation is the walk of the first part followed by
the walk of the second part from the first part's final counter. -/
theorem walkList_append (env : LibEnv) (xs ys : List FsEntry) (c : Int) :
    (walkList env (xs ++ ys) c).events =
      (walkList env xs c).events ++
        (walkList env ys (walkList env xs c).counter).events ∧
    (walkList env (xs ++ ys) c).counter =
      (walkList env ys (walkList env xs c).counter).counter := by
  induction xs generalizing c with
  | nil => exact ⟨rfl, rfl⟩
  | cons e rest ih =>
    rw [List.cons_append, walkList_cons, walkList_cons]
    refine ⟨?_, (ih _).2⟩
    simp only [(ih _).1, List.append_assoc]

theorem mem_walkList_events {env : LibEnv} {es : List FsEntry} {c : Int} {x : ScanEvent}
    (hx : x ∈ (walkList env es c).events) :
    ∃ e, e ∈ es ∧ ∃ d, x ∈ (walkFunc env e d).events := by
  induction es generalizing c with
  | nil => simp [walkList] at hx
  | cons e rest ih =>
    rw [walkList_cons] at hx
    rcases List.mem_append.mp hx with h | h
    · exact ⟨e, List.mem_cons_self e rest, _, h⟩
    · rcases ih h with ⟨f, hf, d, hd⟩
      exact ⟨f, List.mem_cons_of_mem _ hf, d, hd⟩

/-- Neither the media block nor the watch block ever emits a sleep. -/
theorem filter_isSleep_blocks (env : LibEnv) (e : FsEntry) :
    (mediaEvents env e ++ watchEvents env e).filter ScanEvent.isSleep = [] := by
  rw [List.filter_eq_nil_iff]
  intro x hx
  rcases List.mem_append.mp hx with h | h
  · rcases mem_mediaEvents h with rfl | rfl <;> simp [ScanEvent.isSleep]
  · rcases mem_watchEvents h with rfl | rfl <;> simp [ScanEvent.isSleep]

/-- On an error-free entry whose incremented counter has not yet reached
the throttling threshold, the callback emits no sleep and increments the
counter by one. -/
theorem walkFunc_no_throttle {env : LibEnv} {e : FsEntry} {c : Int}
    (herr : e.err = false) (hlt : ¬ env.filesPerOperation ≤ c + 1) :
    (walkFunc env e c).counter = c + 1 ∧
    (walkFunc env e c).events.filter ScanEvent.isSleep = [] := by
  unfold walkFunc
  rw [herr]
  simp only [Bool.false_eq_true, if_false]
  rw [if_neg (by tauto)]
  exact ⟨rfl, filter_isSleep_blocks env e⟩

/-- On an error-free entry with the throttling condition satisfied, the
callback sleeps after its per-entry events and resets the counter. -/
theorem walkFunc_throttle {env : LibEnv} {e : FsEntry} {c : Int}
    (herr : e.err = false)
    (hcond : env.fastScan = false ∧ 0 < env.filesPerOperation ∧
      env.filesPerOperation ≤ c + 1 ∧ 0 < env.sleepPerOperation) :
    (walkFunc env e c).counter = 0 ∧
    (walkFunc env e c).events =
      mediaEvents env e ++ watchEvents env e ++
        [ScanEvent.sleep env.sleepPerOperation] := by
  unfold walkFunc
  rw [herr]
  simp only [Bool.false_eq_true, if_false]
  rw [if_pos hcond]
  exact ⟨rfl, rfl⟩

/-- While the counter stays strictly below the threshold, an error-free
walk emits no sleep and leaves the counter at the number of entries
processed on top of its start value. -/
theorem walkList_no_throttle (env : LibEnv) (es : List FsEntry) :
    ∀ c : Int, (∀ e ∈ es, e.err = false) →
    c + es.length < env.filesPerOperation →
    (walkList env es c).counter = c + es.length ∧
    (walkList env es c).events.filter ScanEvent.isSleep = [] := by
  induction es with
  | nil => intro c _ _; simp [walkList]
  | cons e rest ih =>
    intro c herr hlt
    have he : e.err = false := herr e (List.mem_cons_self e rest)
    simp only [List.length_cons] at hlt
    have hnle : ¬ env.filesPerOperation ≤ c + 1 := by push_cast at hlt; omega
    obtain ⟨hc, hs⟩ := walkFunc_no_throttle he hnle
    rw [walkList_cons, hc]
    obtain ⟨ihc, ihs⟩ := ih (c + 1)
      (fun f hf => herr f (List.mem_cons_of_mem _ hf))
      (by push_cast at hlt ⊢; omega)
    constructor
    · rw [ihc]; simp only [List.length_cons]; push_cast; ring
    · rw [List.filter_append, hs, ihs]; rfl

/-- An error-free walk of exactly `FilesPerOperation` entries started at a
zero counter ends with a sleep and a reset counter (fast mode off,
positive sleep). -/
theorem walkList_hits_sleep (env : LibEnv) (es : List FsEntry) (n : Nat)
    (hfast : env.fastScan = false) (hspo : 0 < env.sleepPerOperation)
    (herr : ∀ e ∈ es, e.err = false)
    (hfpo : env.filesPerOperation = (n : Int) + 1)
    (hlen : es.length = n + 1) :
    (∃ pre, (walkList env es 0).events =
        pre ++ [ScanEvent.sleep env.sleepPerOperation]) ∧
    (walkList env es 0).counter = 0 := by
  obtain ⟨start, last, rfl, hstartlen⟩ :
      ∃ start last, es = start ++ [last] ∧ start.length = n := by
    rcases List.eq_nil_or_concat es with rfl | ⟨start, last, h⟩
    · simp at hlen
    · rw [List.concat_eq_append] at h
      subst h
      exact ⟨start, last, rfl, by simpa using hlen⟩
  have hinit := walkList_no_throttle env start 0
    (fun f hf => herr f (List.mem_append_left _ hf))
    (by rw [hfpo, hstartlen]; omega)
  obtain ⟨happEv, happC⟩ := walkList_append env start [last] 0
  have hlastErr : last.err = false := herr last (by simp)
  have hcond : env.fastScan = false ∧ 0 < env.filesPerOperation ∧
      env.filesPerOperation ≤ (walkList env start 0).counter + 1 ∧
      0 < env.sleepPerOperation := by
    refine ⟨hfast, by rw [hfpo]; positivity, ?_, hspo⟩
    rw [hinit.1, hstartlen, hfpo]
    omega
  obtain ⟨hc0, hev⟩ := walkFunc_throttle hlastErr hcond
  constructor
  · refine ⟨(walkList env start 0).events ++
        (mediaEvents env last ++ watchEvents env last), ?_⟩
    rw [happEv, walkList_cons, hev]
    simp [walkList, List.append_assoc]
  · rw [happC, walkList_cons]
    simp [walkList, hc0]

/-- In fast mode a callback invocation never sleeps. -/
theorem walkFunc_fast {env : LibEnv} {e : FsEntry} {c : Int}
    (hfast : env.fastScan = true) :
    (walkFunc env e c).events.filter ScanEvent.isSleep = [] := by
  unfold walkFunc
  split
  · rfl
  · rw [if_neg (fun h => by rw [hfast] at h; exact absurd h.1 (by simp))]
    exact filter_isSleep_blocks env e

/-- In fast mode a whole walk never sleeps. -/
theorem walkList_fast (env : LibEnv) (es : List FsEntry)
    (hfast : env.fastScan = true) :
    ∀ c : Int, (walkList env es c).events.filter ScanEvent.isSleep = [] := by
  induction es with
  | nil => intro c; rfl
  | cons e rest ih =>
    intro c
    rw [walkList_cons]
    simp only [List.filter_append, walkFunc_fast hfast, ih]
    rfl

/-- The watch block never emits an `addMedia` event. -/
theorem watchEvents_addMedia_free (env : LibEnv) (e : FsEntry) :
    (watchEvents env e).filter ScanEvent.isAddMedia = [] := by
  rw [List.filter_eq_nil_iff]
  intro x hx
  rcases mem_watchEvents hx with rfl | rfl <;> simp [ScanEvent.isAddMedia]

/-- On a path the format filter rejects, the callback emits no `addMedia`
event at all. -/
theorem walkFunc_addMedia_free {env : LibEnv} {e : FsEntry} {c : Int}
    (hsup : env.isSupportedFormat e.path = false) :
    (walkFunc env e c).events.filter ScanEvent.isAddMedia = [] := by
  have hm : mediaEvents env e = [] := by
    unfold mediaEvents
    rw [hsup]
    rfl
  unfold walkFunc
  split
  · rfl
  · split <;> rw [hm] <;>
      simp [List.filter_append, watchEvents_addMedia_free, ScanEvent.isAddMedia]

/-- The callback on an entry delivered with an error: log only, counter
untouched. -/
theorem walkFunc_err {env : LibEnv} {e : FsEntry} {c : Int} (h : e.err = true) :
    walkFunc env e c =
      { events := [ScanEvent.logEntryError e.path], counter := c, ret := none } := by
  unfold walkFunc
  rw [if_pos h]

/-- With a non-positive configured sleep the counter is never reset: it
ends at its start value plus the number of error-free entries. -/
theorem walkList_no_reset (env : LibEnv) (es : List FsEntry)
    (hspo : env.sleepPerOperation ≤ 0) :
    ∀ c : Int, (walkList env es c).counter =
      c + ((es.filter (fun e => !e.err)).length : Int) := by
  induction es with
  | nil => intro c; simp [walkList]
  | cons e rest ih =>
    intro c
    rw [walkList_cons]
    rcases he : e.err with _ | _
    · have : walkFunc env e c =
          { events := mediaEvents env e ++ watchEvents env e,
            counter := c + 1, ret := none } := by
        unfold walkFunc
        rw [he]
        simp only [Bool.false_eq_true, if_false]
        rw [if_neg (fun h => absurd h.2.2.2 (by omega))]
      rw [this]
      simp only [ih]
      rw [List.filter_cons_of_pos (by rw [he]; rfl)]
      simp only [List.length_cons]
      push_cast
      ring
    · rw [walkFunc_err he]
      simp only [ih]
      rw [List.filter_cons_of_neg (by rw [he]; simp)]

/-- A walker trace contains exactly one `walkerDone`, as its last event. -/
theorem scanPath_walkerDone (env : LibEnv) (root : String) (entries : List FsEntry) :
    (scanPath env root entries).filter ScanEvent.isWalkerDone =
      [ScanEvent.walkerDone root] := by
  simp only [scanPath, (walkList_total env entries 0).1, List.filter_append]
  have h1 : (walkList env entries 0).events.filter ScanEvent.isWalkerDone = [] := by
    rw [List.filter_eq_nil_iff]
    intro x hx
    rcases mem_walkList_events hx with ⟨e, _, d, hd⟩
    rcases mem_walkFunc_events hd with rfl | rfl | rfl | rfl | rfl | rfl <;>
      simp [ScanEvent.isWalkerDone]
  rw [h1]
  rfl

/-- A walker trace never contains the `cleanup` event. -/
theorem scanPath_no_cleanup (env : LibEnv) (root : String) (entries : List FsEntry) :
    ScanEvent.cleanup ∉ scanPath env root entries := by
  intro hx
  simp only [scanPath, (walkList_total env entries 0).1, List.nil_append,
    List.append_nil] at hx
  rcases List.mem_append.mp hx with h | h
  · rcases mem_walkList_events h with ⟨e, _, d, hd⟩
    rcases mem_walkFunc_events hd with h | h | h | h | h | h <;> simp at h
  · simp at h

/-- In fast mode a walker trace contains no sleep at all. -/
theorem scanPath_fast (env : LibEnv) (root : String) (entries : List FsEntry)
    (hfast : env.fastScan = true) :
    (scanPath env root entries).filter ScanEvent.isSleep = [] := by
  simp only [scanPath, (walkList_total env entries 0).1, List.filter_append,
    walkList_fast env entries hfast]
  rfl

/-- Removing the head of one inner list and re-flattening is a
permutation away from flattening the original. -/
theorem flatten_set_perm {α : Type} :
    ∀ (ws : List (List α)) (i : Nat) (e : α) (tl : List α),
      ws.get? i = some (e :: tl) →
      List.Perm ws.flatten (e :: (ws.set i tl).flatten) := by
  intro ws
  induction ws with
  | nil => intro i e tl h; simp at h
  | cons w rest ih =>
    intro i e tl h
    cases i with
    | zero =>
      simp only [List.get?_cons_zero, Option.some.injEq] at h
      subst h
      simp only [List.set_cons_zero, List.flatten_cons, List.cons_append]
      exact List.Perm.refl _
    | succ j =>
      simp only [List.get?_cons_succ] at h
      have hp := ih j e tl h
      simp only [List.set_cons_succ, List.flatten_cons]
      exact (hp.append_left w).trans List.perm_middle

/-- A merged schedule is a permutation of the concatenation of the walker
traces: scheduling reorders events across walkers but neither loses nor
duplicates any. -/
theorem mergeTraces_perm {α : Type} :
    ∀ (sched : List Nat) (ws : List (List α)),
      List.Perm (mergeTraces sched ws) ws.flatten := by
  intro sched
  induction sched with
  | nil => intro ws; exact List.Perm.refl _
  | cons i rest ih =>
    intro ws
    unfold mergeTraces
    rcases h : ws.get? i with _ | l
    · exact ih ws
    · rcases l with _ | ⟨e, tl⟩
      · exact ih ws
      · exact ((ih (ws.set i tl)).cons e).trans (flatten_set_perm ws i e tl h).symm

/-- Flattening distributes the length of a filter as a sum over the inner
lists. -/
theorem flatten_filter_length {α : Type} (p : α → Bool) :
    ∀ ws : List (List α),
      (ws.flatten.filter p).length = (ws.map (fun w => (w.filter p).length)).sum := by
  intro ws
  induction ws with
  | nil => rfl
  | cons w rest ih =>
    simp [List.filter_append, ih]
    rfl

/-- Summing the constant one over a list counts its elements. -/
theorem sum_map_one {β : Type} (l : List β) :
    (l.map (fun _ => (1 : Nat))).sum = l.length := by
  induction l with
  | nil => rfl
  | cons b rest ih => simp [ih, Nat.add_comm]

/-- C1: for every configuration of root paths (and every scheduling of the
concurrent walkers), `Scan()` runs the cleanup pass exactly once, strictly
after every spawned per-root walker has signalled completion, and no
failure of a walker escapes to `Scan`'s caller: the walk of every root
returns no error, and `Scan` itself has no error output at all — its
result type is just the event trace. -/
theorem Scan_cleanup_once_after_walkers (env : LibEnv) (paths : List String)
    (entriesOf : String → List FsEntry) (sched : List Nat) :
    (Scan env paths entriesOf sched).count ScanEvent.cleanup = 1 ∧
    (∃ pre, Scan env paths entriesOf sched = pre ++ [ScanEvent.cleanup] ∧
      (pre.filter ScanEvent.isWalkerDone).length = paths.length) ∧
    (∀ p, (walkList env (entriesOf p) 0).errOut = none) := by
  have hpre : Scan env paths entriesOf sched =
      (ScanEvent.watcherInit ::
        ((if env.fastScan = false ∧ 0 < env.initialWait
            then [ScanEvent.sleep env.initialWait] else []) ++
          mergeTraces sched (paths.map fun p => scanPath env p (entriesOf p)))) ++
        [ScanEvent.cleanup] := by
    simp [Scan, List.append_assoc]
  have hperm :=
    mergeTraces_perm sched (paths.map fun p => scanPath env p (entriesOf p))
  have hflatNoCleanup :
      ScanEvent.cleanup ∉ (paths.map fun p => scanPath env p (entriesOf p)).flatten := by
    intro hx
    rcases List.mem_flatten.mp hx with ⟨w, hw, hxw⟩
    rcases List.mem_map.mp hw with ⟨p, _, rfl⟩
    exact scanPath_no_cleanup env p (entriesOf p) hxw
  have hmergedNoCleanup :
      ScanEvent.cleanup ∉
        mergeTraces sched (paths.map fun p => scanPath env p (entriesOf p)) :=
    fun hx => hflatNoCleanup (hperm.mem_iff.mp hx)
  refine ⟨?_, ⟨_, hpre, ?_⟩, fun p => (walkList_total env (entriesOf p) 0).1⟩
  · rw [hpre, List.count_append]
    have hzero :
        (ScanEvent.watcherInit ::
          ((if env.fastScan = false ∧ 0 < env.initialWait
              then [ScanEvent.sleep env.initialWait] else []) ++
            mergeTraces sched
              (paths.map fun p => scanPath env p (entriesOf p)))).count
          ScanEvent.cleanup = 0 := by
      rw [List.count_eq_zero]
      intro hmem
      rcases List.mem_cons.mp hmem with h | h
      · exact ScanEvent.noConfusion h
      · rcases List.mem_append.mp h with h | h
        · split at h <;> simp at h
        · exact hmergedNoCleanup h
    rw [hzero]
    rfl
  · have hlen :
        ((mergeTraces sched
            (paths.map fun p => scanPath env p (entriesOf p))).filter
          ScanEvent.isWalkerDone).length = paths.length := by
      rw [(hperm.filter ScanEvent.isWalkerDone).length_eq, flatten_filter_length,
        List.map_map]
      have hone : paths.map
          ((fun w => (List.filter ScanEvent.isWalkerDone w).length) ∘
            fun p => scanPath env p (entriesOf p)) =
          paths.map (fun _ => 1) := by
        apply List.map_congr_left
        intro p _
        simp [Function.comp, scanPath_walkerDone]
      rw [hone, sum_map_one]
    rw [List.filter_cons_of_neg (by simp [ScanEvent.isWalkerDone]),
      List.filter_append, List.length_append, hlen]
    have : ((if env.fastScan = false ∧ 0 < env.initialWait
        then [ScanEvent.sleep env.initialWait] else []).filter
          ScanEvent.isWalkerDone).length = 0 := by
      split <;> rfl
    rw [this]
    omega

/-- C7: with the fast-scan flag set, no sleep of any kind appears in the
trace of `Scan` — neither the `InitialWait` pause before touching the
filesystem nor any walker's `SleepPerOperation` pause — for every
configuration, set of roots, filesystem contents and walker scheduling. -/
theorem fast_mode_disables_all_sleeps (env : LibEnv) (paths : List String)
    (entriesOf : String → List FsEntry) (sched : List Nat) :
    (Scan { env with fastScan := true } paths entriesOf sched).filter
      ScanEvent.isSleep = [] := by
  have hflat :
      ((paths.map fun p =>
          scanPath { env with fastScan := true } p (entriesOf p)).flatten.filter
        ScanEvent.isSleep) = [] := by
    rw [List.filter_eq_nil_iff]
    intro x hx
    rcases List.mem_flatten.mp hx with ⟨w, hw, hxw⟩
    rcases List.mem_map.mp hw with ⟨p, _, rfl⟩
    intro hsl
    have hempty := scanPath_fast { env with fastScan := true } p (entriesOf p) rfl
    rw [List.filter_eq_nil_iff] at hempty
    exact hempty x hxw hsl
  have hmerged :
      ((mergeTraces sched (paths.map fun p =>
          scanPath { env with fastScan := true } p (entriesOf p))).filter
        ScanEvent.isSleep) = [] := by
    have hperm := (mergeTraces_perm sched (paths.map fun p =>
      scanPath { env with fastScan := true } p (entriesOf p))).filter
        ScanEvent.isSleep
    rw [hflat] at hperm
    exact hperm.eq_nil
  show (ScanEvent.watcherInit :: (_ ++ _ ++ [ScanEvent.cleanup])).filter
      ScanEvent.isSleep = []
  rw [List.filter_cons_of_neg (by simp [ScanEvent.isSleep])]
  rw [List.filter_append, List.filter_append, hmerged]
  rw [if_neg (fun h => by simp at h)]
  rfl

/-- C5: no entry-level filesystem error, `AddMedia` failure or
watch-registration failure ever makes the walk callback return a non-nil
error — it returns `nil` for every environment (including ones in which
`AddMedia` and `Watch` fail on every path), so `filepath.Walk` never
aborts: it reports no error and visits every entry of the tree in order. -/
theorem walk_errors_never_abort_traversal :
    (∀ (env : LibEnv) (e : FsEntry) (c : Int), (walkFunc env e c).ret = none) ∧
    (∀ (env : LibEnv) (entries : List FsEntry) (c : Int),
      (walkList env entries c).errOut = none ∧
      (walkList env entries c).visited = entries.map FsEntry.path) :=
  ⟨walkFunc_ret, fun env entries c => walkList_total env entries c⟩

/-- When the throttling condition does not hold, the callback on an
error-free entry takes the non-sleeping branch. -/
theorem walkFunc_nosleep {env : LibEnv} {e : FsEntry} {c : Int}
    (herr : e.err = false)
    (hncond : ¬(env.fastScan = false ∧ 0 < env.filesPerOperation ∧
      env.filesPerOperation ≤ c + 1 ∧ 0 < env.sleepPerOperation)) :
    walkFunc env e c =
      { events := mediaEvents env e ++ watchEvents env e,
        counter := c + 1, ret := none } := by
  unfold walkFunc
  rw [herr]
  simp only [Bool.false_eq_true, if_false]
  rw [if_neg hncond]

/-- With throttling configured and fast mode off, a walker counter started
inside the window stays non-negative and strictly below
`FilesPerOperation` after processing any sequence of entries. -/
theorem walkList_counter_lt (env : LibEnv) (es : List FsEntry)
    (hfast : env.fastScan = false) (hfpo : 0 < env.filesPerOperation)
    (hspo : 0 < env.sleepPerOperation) :
    ∀ c : Int, 0 ≤ c → c < env.filesPerOperation →
      0 ≤ (walkList env es c).counter ∧
      (walkList env es c).counter < env.filesPerOperation := by
  induction es with
  | nil => intro c h0 hlt; exact ⟨h0, hlt⟩
  | cons e rest ih =>
    intro c h0 hlt
    rw [walkList_cons]
    rcases he : e.err with _ | _
    · by_cases hcond : env.fastScan = false ∧ 0 < env.filesPerOperation ∧
          env.filesPerOperation ≤ c + 1 ∧ 0 < env.sleepPerOperation
      · rw [(walkFunc_throttle he hcond).1]
        exact ih 0 le_rfl hfpo
      · have hnle : ¬ env.filesPerOperation ≤ c + 1 :=
          fun hle => hcond ⟨hfast, hfpo, hle, hspo⟩
        rw [walkFunc_nosleep he hcond]
        exact ih (c + 1) (by omega) (by omega)
    · rw [walkFunc_err he]
      exact ih c h0 hlt

/-- A supported error-free media file. -/
def fileA : FsEntry := { path := "/m/a.mp3", isDir := false, err := false }

/-- An unsupported error-free file. -/
def fileB : FsEntry := { path := "/m/b.txt", isDir := false, err := false }

/-- A second supported error-free media file. -/
def fileC : FsEntry := { path := "/m/c.mp3", isDir := false, err := false }

/-- C3: the walker's self-throttling.  First conjunct — on an error-free
entry the callback sleeps exactly when fast mode is off,
`FilesPerOperation` is positive, the incremented counter has reached it
and `SleepPerOperation` is positive; when it sleeps, it sleeps
`SleepPerOperation` as its last action for that entry and resets the
counter to zero.  Second conjunct — under those throttling settings the
counter always stays strictly below `FilesPerOperation`, so reaching the
threshold happens exactly at equality.  Third conjunct — a walker over
more than `N = n + 1` error-free entries with `FilesPerOperation = N` and
`SleepPerOperation = d > 0` pauses: the events of its first `N` entries
end with `sleep d`, the counter is reset, and the remaining entries'
events all come after that sleep. -/
theorem walker_throttling_contract :
    (∀ (env : LibEnv) (e : FsEntry) (c : Int), e.err = false →
      (¬ (walkFunc env e c).events.filter ScanEvent.isSleep = [] ↔
        (env.fastScan = false ∧ 0 < env.filesPerOperation ∧
         env.filesPerOperation ≤ c + 1 ∧ 0 < env.sleepPerOperation)) ∧
      ((env.fastScan = false ∧ 0 < env.filesPerOperation ∧
         env.filesPerOperation ≤ c + 1 ∧ 0 < env.sleepPerOperation) →
        (walkFunc env e c).counter = 0 ∧
        ∃ pre, (walkFunc env e c).events =
          pre ++ [ScanEvent.sleep env.sleepPerOperation])) ∧
    (∀ (env : LibEnv) (es : List FsEntry),
      env.fastScan = false → 0 < env.filesPerOperation →
      0 < env.sleepPerOperation →
      (walkList env es 0).counter < env.filesPerOperation) ∧
    (∀ (env : LibEnv) (entries : List FsEntry) (n : Nat),
      env.fastScan = false → env.filesPerOperation = (n : Int) + 1 →
      0 < env.sleepPerOperation → (∀ e ∈ entries, e.err = false) →
      n + 1 ≤ entries.length →
      (∃ pre, (walkList env (entries.take (n + 1)) 0).events =
          pre ++ [ScanEvent.sleep env.sleepPerOperation]) ∧
      (walkList env (entries.take (n + 1)) 0).counter = 0 ∧
      (walkList env entries 0).events =
        (walkList env (entries.take (n + 1)) 0).events ++
          (walkList env (entries.drop (n + 1)) 0).events) := by
  refine ⟨?_, ?_, ?_⟩
  · intro env e c herr
    refine ⟨⟨?_, ?_⟩, ?_⟩
    · intro hne
      by_contra hncond
      rw [walkFunc_nosleep herr hncond] at hne
      exact hne (filter_isSleep_blocks env e)
    · intro hcond
      rw [(walkFunc_throttle herr hcond).2]
      simp [List.filter_append, filter_isSleep_blocks, ScanEvent.isSleep]
    · intro hcond
      exact ⟨(walkFunc_throttle herr hcond).1,
        mediaEvents env e ++ watchEvents env e, (walkFunc_throttle herr hcond).2⟩
  · intro env es h1 h2 h3
    exact (walkList_counter_lt env es h1 h2 h3 0 le_rfl h2).2
  · intro env entries n hfast hfpo hspo herr hlen
    have htake := walkList_hits_sleep env (entries.take (n + 1)) n hfast hspo
      (fun e he => herr e (List.take_subset _ _ he)) hfpo
      (by rw [List.length_take]; omega)
    refine ⟨htake.1, htake.2, ?_⟩
    have hsplit := walkList_append env (entries.take (n + 1)) (entries.drop (n + 1)) 0
    rw [List.take_append_drop] at hsplit
    rw [hsplit.1, htake.2]

/-- Witness instantiating the throttling pause: with `FilesPerOperation=2`,
`SleepPerOperation=5`, fast mode off and three error-free entries, the
events of the first two entries end with `sleep 5`, positioned before the
third entry's events. -/
theorem walker_throttling_contract_witness :
    (∃ pre, (walkList sampleEnv ([fileA, fileB, fileC].take 2) 0).events =
        pre ++ [ScanEvent.sleep 5]) ∧
    (walkList sampleEnv ([fileA, fileB, fileC].take 2) 0).counter = 0 ∧
    (walkList sampleEnv [fileA, fileB, fileC] 0).events =
      (walkList sampleEnv ([fileA, fileB, fileC].take 2) 0).events ++
        (walkList sampleEnv ([fileA, fileB, fileC].drop 2) 0).events :=
  walker_throttling_contract.2.2 sampleEnv [fileA, fileB, fileC] 1 rfl
    (by decide) (by decide) (by decide) (by decide)

/-- C4 (amended): during a walk, `AddMedia` is invoked for a visited entry
exactly when the entry was delivered without an entry-level error and its
path passes the format filter — whether the entry is a regular file or a
directory; an entry whose path the filter rejects produces no `addMedia`
event (no catalog mutation) and the callback still returns no error. -/
theorem addMedia_invocation_amended :
    ∀ (env : LibEnv) (e : FsEntry) (c : Int),
      (ScanEvent.addMedia e.path ∈ (walkFunc env e c).events ↔
        e.err = false ∧ env.isSupportedFormat e.path = true) ∧
      (env.isSupportedFormat e.path = false →
        (walkFunc env e c).events.filter ScanEvent.isAddMedia = []) ∧
      (walkFunc env e c).ret = none := by
  intro env e c
  refine ⟨⟨?_, ?_⟩, fun h => walkFunc_addMedia_free h, walkFunc_ret env e c⟩
  · intro hmem
    rcases he : e.err with _ | _
    · refine ⟨rfl, ?_⟩
      by_contra h
      have hsup : env.isSupportedFormat e.path = false := by
        revert h
        rcases env.isSupportedFormat e.path with _ | _ <;> simp
      have hfree := walkFunc_addMedia_free (e := e) (c := c) hsup
      rw [List.filter_eq_nil_iff] at hfree
      exact hfree _ hmem rfl
    · rw [walkFunc_err he] at hmem
      simp at hmem
  · rintro ⟨herr, hsup⟩
    have hm : ScanEvent.addMedia e.path ∈ mediaEvents env e := by
      unfold mediaEvents
      rw [hsup, if_pos rfl]
      split <;> simp
    by_cases hcond : env.fastScan = false ∧ 0 < env.filesPerOperation ∧
        env.filesPerOperation ≤ c + 1 ∧ 0 < env.sleepPerOperation
    · rw [(walkFunc_throttle herr hcond).2]
      exact List.mem_append_left _ (List.mem_append_left _ hm)
    · rw [walkFunc_nosleep herr hcond]
      exact List.mem_append_left _ hm

/-- Witness for the amended invocation contract: the unsupported file
`/m/b.txt` produces no `addMedia` event. -/
theorem addMedia_invocation_amended_witness :
    (walkFunc sampleEnv fileB 0).events.filter ScanEvent.isAddMedia = [] :=
  (addMedia_invocation_amended sampleEnv fileB 0).2.1 (by decide)

/-- Counterexample to the claim as stated: a visited directory whose name
carries a supported extension *is* passed to `AddMedia` although it is not
a regular file, and a visited regular media file delivered with an
entry-level error is *not* passed to `AddMedia` although it is a regular
file matching the filter. -/
theorem addMedia_invocation_counterexample :
    ((walkFunc sampleEnv dirEntry 0).events =
        [ScanEvent.addMedia "/music/box.mp3", ScanEvent.watchReg "/music/box.mp3"] ∧
      dirEntry.isDir = true ∧ sampleEnv.isSupportedFormat dirEntry.path = true) ∧
    ((walkFunc sampleEnv errEntry 0).events =
        [ScanEvent.logEntryError "/music/track.mp3"] ∧
      errEntry.isDir = false ∧ errEntry.err = true ∧
      sampleEnv.isSupportedFormat errEntry.path = true) := by decide

/-- C10 (amended): the walker's counter is incremented once for every
visited entry delivered without an entry-level error — directories and
unsupported files included — and left untouched on error entries; it is
reset to zero only together with an actual sleep event.  A pause triggers
after `FilesPerOperation` error-free visited entries even when none of
them is a media file (no `addMedia` at all), and with
`SleepPerOperation = 0` the counter never resets: it ends at the number of
error-free entries visited. -/
theorem walker_counter_semantics :
    (∀ (env : LibEnv) (e : FsEntry) (c : Int), e.err = false →
      ((walkFunc env e c).counter = c + 1 ∧
        (walkFunc env e c).events.filter ScanEvent.isSleep = []) ∨
      ((walkFunc env e c).counter = 0 ∧
        (walkFunc env e c).events.filter ScanEvent.isSleep =
          [ScanEvent.sleep env.sleepPerOperation])) ∧
    (∀ (env : LibEnv) (e : FsEntry) (c : Int), e.err = true →
      (walkFunc env e c).counter = c ∧
      (walkFunc env e c).events.filter ScanEvent.isSleep = []) ∧
    (∀ (env : LibEnv) (entries : List FsEntry) (n : Nat),
      env.fastScan = false → env.filesPerOperation = (n : Int) + 1 →
      0 < env.sleepPerOperation →
      (∀ e ∈ entries, e.err = false ∧ env.isSupportedFormat e.path = false) →
      entries.length = n + 1 →
      (∃ pre, (walkList env entries 0).events =
          pre ++ [ScanEvent.sleep env.sleepPerOperation]) ∧
      (walkList env entries 0).events.filter ScanEvent.isAddMedia = []) ∧
    (∀ (env : LibEnv) (entries : List FsEntry) (c : Int),
      env.sleepPerOperation = 0 →
      (walkList env entries c).counter =
        c + ((entries.filter (fun e => !e.err)).length : Int)) := by
  refine ⟨?_, ?_, ?_, ?_⟩
  · intro env e c herr
    by_cases hcond : env.fastScan = false ∧ 0 < env.filesPerOperation ∧
        env.filesPerOperation ≤ c + 1 ∧ 0 < env.sleepPerOperation
    · right
      refine ⟨(walkFunc_throttle herr hcond).1, ?_⟩
      rw [(walkFunc_throttle herr hcond).2, List.filter_append,
        filter_isSleep_blocks]
      rfl
    · left
      rw [walkFunc_nosleep herr hcond]
      exact ⟨rfl, filter_isSleep_blocks env e⟩
  · intro env e c herr
    rw [walkFunc_err herr]
    exact ⟨rfl, rfl⟩
  · intro env entries n hfast hfpo hspo hboth hlen
    have hsleep := walkList_hits_sleep env entries n hfast hspo
      (fun e he => (hboth e he).1) hfpo hlen
    refine ⟨hsleep.1, ?_⟩
    rw [List.filter_eq_nil_iff]
    intro x hx
    rcases mem_walkList_events hx with ⟨e, he, d, hd⟩
    have hfree := walkFunc_addMedia_free (e := e) (c := d) (hboth e he).2
    rw [List.filter_eq_nil_iff] at hfree
    exact hfree x hd
  · intro env entries c hspo
    exact walkList_no_reset env entries (by omega) c

/-- Witness: with `SleepPerOperation = 0` the counter never resets — over
one supported file, one error entry and one unsupported file it ends at
two, counting exactly the two error-free entries. -/
theorem walker_counter_semantics_witness :
    (walkList { sampleEnv with sleepPerOperation := 0 }
      [fileA, errEntry, fileB] 0).counter = 0 + (2 : Int) :=
  walker_counter_semantics.2.2.2 { sampleEnv with sleepPerOperation := 0 }
    [fileA, errEntry, fileB] 0 rfl

/-- Counterexample to the claim as stated: an entry delivered with an
entry-level error is visited by the walk (the callback runs on it) but
does not increment the throttling counter. -/
theorem walker_counter_error_entry_counterexample :
    (walkList sampleEnv [errEntry] 0).visited.length = 1 ∧
    (walkList sampleEnv [errEntry] 0).counter = 0 := by decide

/-- C2: the cleanup pass removes exactly the dangling rows.  An album row
survives exactly when some surviving track references it directly, and an
artist row survives exactly when some surviving track references it
directly (not transitively through albums); in the cleanup-test catalog —
album `Lonely Album` and artist `Fruitless Fellow` referenced only by
tracks whose files do not exist — the pass removes exactly those album
and artist rows (and the stale tracks), leaving nothing else. -/
theorem cleanUpDatabase_removes_exactly_dangling :
    (∀ (fsExists : String → Bool) (c : Catalog) (a : Album),
      a ∈ (cleanUpDatabase fsExists c).albums ↔
        a ∈ c.albums ∧ ∃ t, t ∈ (cleanUpDatabase fsExists c).tracks ∧
          t.albumID = a.id) ∧
    (∀ (fsExists : String → Bool) (c : Catalog) (ar : Artist),
      ar ∈ (cleanUpDatabase fsExists c).artists ↔
        ar ∈ c.artists ∧ ∃ t, t ∈ (cleanUpDatabase fsExists c).tracks ∧
          t.artistID = ar.id) ∧
    ((cleanUpDatabase (fun _ => false) lonelyCatalog).albums = [] ∧
      (cleanUpDatabase (fun _ => false) lonelyCatalog).artists = [] ∧
      (cleanUpDatabase (fun _ => false) lonelyCatalog).tracks = []) := by
  refine ⟨?_, ?_, by decide⟩
  · intro fsExists c a
    simp [cleanUpDatabase, List.mem_filter, List.any_eq_true, beq_iff_eq]
  · intro fsExists c ar
    simp [cleanUpDatabase, List.mem_filter, List.any_eq_true, beq_iff_eq]

/-- Witness evaluating the cleanup pass on the cleanup-test catalog with
an empty filesystem: the dangling album row is gone. -/
theorem cleanUpDatabase_removes_exactly_dangling_witness :
    (cleanUpDatabase (fun _ => false) lonelyCatalog).albums = [] :=
  cleanUpDatabase_removes_exactly_dangling.2.2.1

/-- C6: the cleanup pass is idempotent — a second consecutive run with no
intervening catalog change is the identity on the already-cleaned
catalog, so it deletes nothing. -/
theorem cleanUpDatabase_idempotent :
    ∀ (fsExists : String → Bool) (c : Catalog),
      cleanUpDatabase fsExists (cleanUpDatabase fsExists c) =
        cleanUpDatabase fsExists c := by
  intro fsExists c
  have hff : ∀ {α : Type} (p : α → Bool) (l : List α),
      (l.filter p).filter p = l.filter p :=
    fun p l => List.filter_eq_self.mpr fun a ha => List.of_mem_filter ha
  simp only [cleanUpDatabase, liveTracks, hff, Catalog.mk.injEq]

/-- C9: `Search` returns exactly the catalog entries one of whose title,
album or artist fields contains the query as a case-insensitive
substring; the empty result is the plain empty list (the function has no
error output), returned exactly when no track matches; on the search-test
catalog, the query `Album Of Tests` yields exactly its two tracks and
`Not There` yields the empty sequence. -/
theorem Search_contract :
    (∀ (c : Catalog) (q : String) (r : SearchResult),
      r ∈ Search c q ↔ ∃ t, t ∈ c.tracks ∧
        (containsCI t.name q = true ∨
         containsCI (albumNameOf c t.albumID) q = true ∨
         containsCI (artistNameOf c t.artistID) q = true) ∧
        r = toSearchResult c t) ∧
    (∀ (c : Catalog) (q : String),
      Search c q = [] ↔ ∀ t ∈ c.tracks, trackMatches c q t = false) ∧
    (Search testsCatalog "Album Of Tests" =
      [ { id := 11, title := "Awesome Track 1", album := "Album Of Tests",
          artist := "Artist Testoff", trackNumber := 1 },
        { id := 12, title := "Track Numero Dos", album := "Album Of Tests",
          artist := "Artist Testoff", trackNumber := 2 } ] ∧
      Search testsCatalog "Not There" = []) := by
  refine ⟨?_, ?_, by decide⟩
  · intro c q r
    simp only [Search, List.mem_map, List.mem_filter, trackMatches,
      Bool.or_eq_true]
    constructor
    · rintro ⟨t, ⟨ht, hm⟩, rfl⟩
      exact ⟨t, ht, by tauto, rfl⟩
    · rintro ⟨t, ht, hm, rfl⟩
      exact ⟨t, ⟨ht, by tauto⟩, rfl⟩
  · intro c q
    simp [Search, List.filter_eq_nil_iff]

/-- Witness evaluating `Search` on the search-test catalog: the
non-matching query returns the empty sequence. -/
theorem Search_contract_witness : Search testsCatalog "Not There" = [] :=
  Search_contract.2.2.2

/-- C8 (race in the generation barrier): an explicit legal interleaving of
two concurrent `Scan()` calls in which both pass the drain barrier of
lines 14-16 while the WaitGroup is still zero, after which each spawns
its own walkers — reaching a state in which walkers of both generations
run concurrently.  Every step of `raceSchedule` is an enabled transition
of the RWMutex/WaitGroup semantics (`syncRun` returns `some`), and the
final state has live walkers of both generations. -/
theorem scan_generation_barrier_race :
    (syncRun 1 raceSchedule syncInit).map twoGenerationsLive = some true := by
  decide
